import Mathlib

/-
Shallow embedding of hemokosa/quantumfuck, file src/qf.py.

The repository implements a tiny esoteric-language interpreter (class `QF`)
that walks a character stream and either mutates its own control state
(pointer, loop stack, program counter) or queues quantum-gate operations that
are applied to a state vector by the external `qulacs` backend.  The backend
(`QuantumState`, `QuantumCircuit`, `Observable`, the drawing and `exrex`
regex-sampling collaborators) is not part of the repository; it is abstracted
here as a `Backend` structure of state transformers over an arbitrary state
type `σ`, with exact rational numbers standing in for the double-precision
reals of the source.  All Python randomness (`np.random.rand`,
`random.randint`, `random.choice`, and the generator hidden inside
`set_Haar_random_state`) is threaded explicitly through a `RandSrc` value.
-/

/-- Explicit pseudo-random source standing in for the process-wide Python
generators.  Draws are consumed from the front of the streams; an exhausted
stream yields a default value (the Python generators never exhaust, and every
theorem quantifies over the streams, so the default is just one more possible
draw). -/
structure RandSrc where
  floats : List ℚ
  ints : List Nat
  bools : List Bool
deriving DecidableEq

/-- One draw of `np.random.rand()` (a uniform sample in `[0,1)`). -/
def RandSrc.rand (r : RandSrc) : ℚ × RandSrc :=
  (r.floats.headD 0, { r with floats := r.floats.tail })

/-- One draw of `random.randint(0, n-1)`.  The Python call returns an integer
in the inclusive range `[0, n-1]`; the `% n` records that in-range guarantee
for an arbitrary stream value. -/
def RandSrc.randint (r : RandSrc) (n : Nat) : Nat × RandSrc :=
  (r.ints.headD 0 % n, { r with ints := r.ints.tail })

/-- One draw of `random.choice([True, False])`. -/
def RandSrc.choice (r : RandSrc) : Bool × RandSrc :=
  (r.bools.headD true, { r with bools := r.bools.tail })

/-- One fresh seed for the backend's internal Haar sampling
(`state.set_Haar_random_state()` draws from qulacs' own generator). -/
def RandSrc.seed (r : RandSrc) : Nat × RandSrc :=
  (r.ints.headD 0, { r with ints := r.ints.tail })

/-- One queued circuit operation: the gate constructors invoked in `QF.parse`
(`Measurement(target, classical_register)`, `add_H_gate`, `add_T_gate`,
`add_CNOT_gate(control, target)`, `DepolarizingNoise(target, prob)`).  Qubit
indices are Python ints. -/
inductive Gate where
  | measurement (target creg : Int)
  | H (target : Int)
  | T (target : Int)
  | CNOT (control target : Int)
  | depolarizingNoise (target : Int) (prob : ℚ)
deriving DecidableEq

/-- Modelled from the spec: the qulacs state-vector backend
(`QuantumState`, `QuantumCircuit.update_quantum_state`,
`Observable.get_expectation_value` for a single-qubit Pauli-Z observable,
`set_Haar_random_state`, `set_zero_state`, `QuantumState.load`) is an external
library, not code of this repository.  It is abstracted as deterministic
state transformers over an arbitrary state type `σ`; the stochastic gates
(measurement insert, depolarizing noise) are likewise deterministic functions
of the queued circuit, since no claim concerns the sampled amplitudes. -/
structure Backend (σ : Type) where
  update_quantum_state : List Gate → σ → σ
  expectation_Z : σ → Int → ℚ
  haar_random_state : Nat → σ
  zero_state : σ
  load : List ℚ → σ

/-- The interpreter/VM instance state: exactly the attributes assigned in
`QF.__init__` (qf.py lines 11-39).  `circuit` is the transient gate buffer,
`circuit_all` the merged full circuit log.  The `regex` and `debug` flags only
toggle the external exrex sampler and the logging side channel and carry no
semantic content, so they are omitted. -/
structure QF (σ : Type) where
  state : σ
  pointer : Int
  num_qubits : Nat
  circuit : List Gate
  circuit_all : List Gate
  state_history : List σ
  command_history : List Char
deriving DecidableEq

/-- Value of `int(init, 2)` on the binary string passed to `QF.__init__`
(qf.py line 21); defined on strings of `'0'`/`'1'` characters. -/
def bin_to_nat (s : List Char) : Nat :=
  s.foldl (fun acc c => 2 * acc + (if c = '1' then 1 else 0)) 0

/-- The basis state vector built at qf.py lines 20-22: all zeros except a one
at the decoded index. -/
def basis_vector (num_qubits index : Nat) : List ℚ :=
  (List.range (2 ^ num_qubits)).map (fun j => if j = index then 1 else 0)

/-- `QF.__init__` (qf.py lines 11-39): build the initial state (zero state,
binary-string basis state, or explicit vector), set the pointer to 0, and
create the empty circuit buffers and history lists. -/
def QF.init (B : Backend σ) (num_qubits : Nat) (init : Option (List Char ⊕ List ℚ)) : QF σ :=
  { state :=
      match init with
      | none => B.zero_state
      | some (.inl s) => B.load (basis_vector num_qubits (bin_to_nat s))
      | some (.inr v) => B.load v
    pointer := 0
    num_qubits := num_qubits
    circuit := []
    circuit_all := []
    state_history := []
    command_history := [] }

/-- The method `QF.measure` (qf.py lines 156-174): build the Pauli-Z
observable on the pointer qubit, read its expectation value `e` against the
current state, set `prob = (1.0 - e) * 0.5`, and return
`0 if prob > np.random.rand() else 1`.  The state is only read
(`get_expectation_value`), never written, so the function returns just the
outcome and the advanced random source. -/
def QF.measure (B : Backend σ) (vm : QF σ) (rnd : RandSrc) : Nat × RandSrc :=
  let e := B.expectation_Z vm.state vm.pointer
  let prob := (1 - e) * (1 / 2)
  let sr := rnd.rand
  (if prob > sr.1 then 0 else 1, sr.2)

/-- The locals of one `QF.parse` invocation (qf.py lines 60-62) together with
the VM instance: program counter `i`, state-history counter `h`, and the loop
stack.  The loop stack keeps its most recent entry at the head; Python
appends, pops and reads `[-1]` at the list's end, which is the same stack
read through a reversal. -/
structure ParseState (σ : Type) where
  vm : QF σ
  i : Nat
  h : Nat
  loop_stack : List Nat
  rnd : RandSrc
deriving DecidableEq

/-- The gate-class membership test of qf.py line 139:
`command in ['+', 'H', '~', 'T', '@', 'C', '.', 'M', '#', 'N', '?']`. -/
def gate_class (c : Char) : Bool :=
  c == '+' || c == 'H' || c == '~' || c == 'T' || c == '@' || c == 'C' ||
  c == '.' || c == 'M' || c == '#' || c == 'N' || c == '?'

/-- The characters owning a dispatch branch in the `elif` chain of
`QF.parse` (qf.py lines 68-127); every other character falls into the
`Invalid command` branch at lines 128-132. -/
def recognized_command (c : Char) : Bool :=
  c == '>' || c == '<' || c == '[' || c == ']' || c == ';' || c == ',' ||
  c == ':' || c == '.' || c == 'M' || c == '+' || c == 'H' || c == '~' ||
  c == 'T' || c == '@' || c == 'C' || c == '#' || c == 'N' || c == '?' ||
  c == '!' || c == '*'

/-- Decimal value of the digit run matched by `re.match` at qf.py line 105
and decoded by `int(match.group(0))` at line 107. -/
def digits_to_nat (ds : List Char) : Nat :=
  ds.foldl (fun acc c => 10 * acc + (c.toNat - '0'.toNat)) 0

/-- The character `code[i]` read at qf.py line 65.  The caller only dispatches
while `i < len(code)`; the default `' '` (an unrecognized character) is never
consulted on in-range indices. -/
def QF.current (code : List Char) (s : ParseState σ) : Char := code.getD s.i ' '

/-- Run-ending events of the embedded `parse`: `indexError` is the Python
`IndexError` raised by `loop_stack.pop()` or `loop_stack[-1]` on an empty
list; `outOfFuel` is the artifact of bounding the source's unbounded `while`
loop by explicit fuel. -/
inductive QFError where
  | indexError
  | outOfFuel
deriving DecidableEq

/-- The loop-close branch of the dispatch chain, qf.py lines 77-83:

    elif command == ']':
        if self.measure() == 0:
            loop_stack.pop()
        else:
            i = loop_stack[-1]

The measurement happens first in either case; on an empty stack both
`loop_stack.pop()` and `loop_stack[-1]` raise `IndexError`. -/
def QF.close_loop (B : Backend σ) (s : ParseState σ) : Except QFError (ParseState σ) :=
  let m := QF.measure B s.vm s.rnd
  if m.1 = 0 then
    match s.loop_stack with
    | [] => .error .indexError
    | _ :: rest => .ok { s with rnd := m.2, loop_stack := rest }
  else
    match s.loop_stack with
    | [] => .error .indexError
    | top :: _ => .ok { s with rnd := m.2, i := top }

/-- Outcome of the `elif` chain (qf.py lines 68-132): `next` falls through to
the shared bookkeeping at lines 134-146, `skip` is the unrecognized-command
branch (`i += 1; continue`), and `fail` propagates an exception. -/
inductive Dispatch (σ : Type) where
  | next (s : ParseState σ)
  | skip (s : ParseState σ)
  | fail (e : QFError)

/-- The dispatch chain of `QF.parse`, qf.py lines 68-132, one branch per
`elif`.  Pointer arithmetic uses the Euclidean `%` on `Int`, which agrees
with Python's `%` for a positive modulus. -/
def QF.dispatch (B : Backend σ) (code : List Char) (s : ParseState σ) : Dispatch σ :=
  if QF.current code s = '>' then
    .next { s with vm := { s.vm with pointer := (s.vm.pointer + 1) % (s.vm.num_qubits : Int) } }
  else if QF.current code s = '<' then
    .next { s with vm := { s.vm with pointer := (s.vm.pointer - 1) % (s.vm.num_qubits : Int) } }
  else if QF.current code s = '[' then
    .next { s with loop_stack := s.i :: s.loop_stack }
  else if QF.current code s = ']' then
    match QF.close_loop B s with
    | .error e => .fail e
    | .ok s₁ => .next s₁
  else if QF.current code s = ';' then
    .next { s with vm := { s.vm with state := B.haar_random_state s.rnd.seed.1 },
                   rnd := s.rnd.seed.2 }
  else if QF.current code s = ',' then
    .next { s with vm := { s.vm with state := B.zero_state } }
  else if QF.current code s = ':' then
    .next { s with rnd := (QF.measure B s.vm s.rnd).2 }
  else if QF.current code s = '.' ∨ QF.current code s = 'M' then
    .next { s with vm := { s.vm with
      circuit := s.vm.circuit ++ [Gate.measurement s.vm.pointer s.vm.pointer] } }
  else if QF.current code s = '+' ∨ QF.current code s = 'H' then
    .next { s with vm := { s.vm with circuit := s.vm.circuit ++ [Gate.H s.vm.pointer] } }
  else if QF.current code s = '~' ∨ QF.current code s = 'T' then
    .next { s with vm := { s.vm with circuit := s.vm.circuit ++ [Gate.T s.vm.pointer] } }
  else if QF.current code s = '@' ∨ QF.current code s = 'C' then
    let digits := (code.drop (s.i + 1)).takeWhile Char.isDigit
    if digits = [] then
      .next { s with vm := { s.vm with
        circuit := s.vm.circuit ++
          [Gate.CNOT s.vm.pointer ((s.vm.pointer + 1) % (s.vm.num_qubits : Int))] } }
    else
      .next { s with
        i := s.i + digits.length,
        vm := { s.vm with
          circuit := s.vm.circuit ++
            [Gate.CNOT s.vm.pointer
              ((s.vm.pointer + (digits_to_nat digits : Int)) % (s.vm.num_qubits : Int))] } }
  else if QF.current code s = '#' ∨ QF.current code s = 'N' then
    .next { s with vm := { s.vm with
      circuit := s.vm.circuit ++ [Gate.depolarizingNoise s.vm.pointer (1 / 10)] } }
  else if QF.current code s = '?' then
    .next { s with
      vm := { s.vm with
        circuit := s.vm.circuit ++
          [if s.rnd.choice.1 then Gate.H s.vm.pointer else Gate.T s.vm.pointer] },
      rnd := s.rnd.choice.2 }
  else if QF.current code s = '!' then
    .next { s with
      vm := { s.vm with pointer := ((s.rnd.randint s.vm.num_qubits).1 : Int) },
      rnd := (s.rnd.randint s.vm.num_qubits).2 }
  else if QF.current code s = '*' then
    .next { s with i := (s.rnd.randint code.length).1, rnd := (s.rnd.randint code.length).2 }
  else
    .skip { s with i := s.i + 1 }

/-- The bookkeeping shared by every recognized command, qf.py lines 134-146:
append the command character to the command history; on gate-class commands
flush the gate buffer (apply it to the state, merge it into the full circuit
log, replace it by a fresh empty circuit, snapshot the updated state into the
state history, bump `h`); finally advance the program counter by one. -/
def QF.finish (B : Backend σ) (command : Char) (s : ParseState σ) : ParseState σ :=
  let vm := { s.vm with command_history := s.vm.command_history ++ [command] }
  if gate_class command then
    let st := B.update_quantum_state vm.circuit vm.state
    { s with
      vm := { vm with
        state := st,
        circuit_all := vm.circuit_all ++ vm.circuit,
        circuit := [],
        state_history := vm.state_history ++ [st] },
      h := s.h + 1,
      i := s.i + 1 }
  else
    { s with vm := vm, i := s.i + 1 }

/-- One iteration of the `while i < len(code)` body (qf.py lines 64-146):
dispatch, then either `continue` (unrecognized), propagate an exception, or
run the shared bookkeeping. -/
def QF.step (B : Backend σ) (code : List Char) (s : ParseState σ) : Except QFError (ParseState σ) :=
  match QF.dispatch B code s with
  | .fail e => .error e
  | .skip s₁ => .ok s₁
  | .next s₁ => .ok (QF.finish B (QF.current code s) s₁)

/-- The `while i < len(code)` loop of `QF.parse`, bounded by explicit fuel:
the source loop is unbounded and the loop-repeat and `*` commands can make it
diverge, so a run that does not finish within the fuel reports `outOfFuel`. -/
def QF.parse_loop (B : Backend σ) (code : List Char) :
    Nat → ParseState σ → Except QFError (ParseState σ)
  | 0, _ => .error .outOfFuel
  | fuel + 1, s =>
    if s.i < code.length then
      match QF.step B code s with
      | .error e => .error e
      | .ok s₁ => QF.parse_loop B code fuel s₁
    else
      .ok s

/-- The method `QF.parse` (qf.py lines 46-154) for `regex=False` (regex mode
only pre-samples the literal code string through the external `exrex`
collaborator before running the same loop).  The locals `loop_stack`, `i` and
`h` are created fresh; the VM attributes (state, pointer, histories, circuit
buffers) are whatever the instance already holds.  Returns the mutated VM
instance together with the advanced random source. -/
def QF.parse (B : Backend σ) (vm : QF σ) (code : List Char) (fuel : Nat) (rnd : RandSrc) :
    Except QFError (QF σ × RandSrc) :=
  match QF.parse_loop B code fuel { vm := vm, i := 0, h := 0, loop_stack := [], rnd := rnd } with
  | .error e => .error e
  | .ok s => .ok (s.vm, s.rnd)

/-- The value returned by `QF.parse` at qf.py line 154: the final quantum
state, the state history, the command history and the merged full circuit, in
that order. -/
def QF.parse_result (B : Backend σ) (vm : QF σ) (code : List Char) (fuel : Nat) (rnd : RandSrc) :
    Except QFError (σ × List σ × List Char × List Gate) :=
  (QF.parse B vm code fuel rnd).map fun p =>
    (p.1.state, p.1.state_history, p.1.command_history, p.1.circuit_all)

deriving instance DecidableEq for Except

/-- A concrete backend over the one-point state type, used to run the
interpreter on concrete programs in witnesses and counterexamples.  Its Z
expectation value is identically 0, so every measurement has
`prob = (1 - 0) * 0.5 = 1/2`. -/
def B1 : Backend Unit :=
  { update_quantum_state := fun _ _ => ()
    expectation_Z := fun _ _ => 0
    haar_random_state := fun _ => ()
    zero_state := ()
    load := fun _ => () }

/-- Exhausted random streams: every draw is the default (float 0, int 0). -/
def rnd0 : RandSrc := { floats := [], ints := [], bools := [] }

/-- A fresh one-qubit VM over the trivial backend. -/
def vm1 : QF Unit := QF.init B1 1 none

/-- Parse-loop state poised at a `*` command with jump draw 0. -/
def psStar : ParseState Unit :=
  { vm := vm1, i := 0, h := 0, loop_stack := [],
    rnd := { floats := [], ints := [0], bools := [] } }

/-- Parse-loop state poised at the `]` of the program `"[]"`, stack holding
the loop-open position 0, with a measurement sample 1 that forces outcome 1
(the sample is not below `prob = 1/2`). -/
def psRepeat : ParseState Unit :=
  { vm := vm1, i := 1, h := 0, loop_stack := [0],
    rnd := { floats := [1], ints := [], bools := [] } }

/-- Parse-loop state poised at the `]` of `"[]"` with default sample 0,
forcing measurement outcome 0. -/
def psClose : ParseState Unit :=
  { vm := vm1, i := 1, h := 0, loop_stack := [0], rnd := rnd0 }

/-- Fresh four-qubit parse-loop state for the `"@2"` scenario. -/
def psAt2 : ParseState Unit :=
  { vm := QF.init B1 4 none, i := 0, h := 0, loop_stack := [], rnd := rnd0 }

/-- Fresh one-qubit parse-loop state for one-character programs. -/
def ps1 : ParseState Unit :=
  { vm := vm1, i := 0, h := 0, loop_stack := [], rnd := rnd0 }

/-- A VM carrying histories left over from an earlier `parse` call. -/
def vmPre : QF Unit := { vm1 with command_history := ['+'], state_history := [()] }

/-- The VM left behind by running `parse` once more (program `"+"`) on
`vmPre`: the histories of the earlier call are still there, extended. -/
def vmPost : QF Unit :=
  { state := (), pointer := 0, num_qubits := 1, circuit := [],
    circuit_all := [Gate.H 0], state_history := [(), ()],
    command_history := ['+', '+'] }

/-- Command history returned by the second of two consecutive `parse` calls
(program `"+"` each time) on the same fresh VM instance. -/
def two_runs : Option (List Char) :=
  match QF.parse B1 vm1 ['+'] 5 rnd0 with
  | .ok (vm2, rnd2) =>
    match QF.parse B1 vm2 ['+'] 5 rnd2 with
    | .ok (vm3, _) => some vm3.command_history
    | .error _ => none
  | .error _ => none

/-- Parse state after the single step of the program `"+"` from `ps1`. -/
def ps1Plus : ParseState Unit :=
  { vm := { state := (), pointer := 0, num_qubits := 1, circuit := [],
            circuit_all := [Gate.H 0], state_history := [()],
            command_history := ['+'] },
    i := 1, h := 1, loop_stack := [], rnd := rnd0 }

/-- Parse state after the single step of the program `">"` from `ps1`. -/
def ps1Gt : ParseState Unit :=
  { vm := { state := (), pointer := 0, num_qubits := 1, circuit := [],
            circuit_all := [], state_history := [],
            command_history := ['>'] },
    i := 1, h := 0, loop_stack := [], rnd := rnd0 }

/-- Projection: the program counter of a step result, if the step succeeded. -/
def step_i {σ : Type} (r : Except QFError (ParseState σ)) : Option Nat :=
  match r with
  | .ok s => some s.i
  | .error _ => none

/-- Projection: the error of a run, if any. -/
def run_error {α : Type} (r : Except QFError α) : Option QFError :=
  match r with
  | .error e => some e
  | .ok _ => none

/- ------------------------------------------------------------------ -/
/- Helper lemmas                                                      -/
/- ------------------------------------------------------------------ -/

theorem emod_nat_bounds (a : Int) (n : Nat) (hn : n ≠ 0) :
    0 ≤ a % (n : Int) ∧ a % (n : Int) < (n : Int) := by
  constructor
  · exact Int.emod_nonneg a (by exact_mod_cast hn)
  · exact Int.emod_lt_of_pos a (by exact_mod_cast Nat.pos_of_ne_zero hn)

theorem finish_gate_eq (B : Backend σ) (c : Char) (s : ParseState σ)
    (h : gate_class c = true) :
    QF.finish B c s =
      { s with
        vm := { s.vm with
          state := B.update_quantum_state s.vm.circuit s.vm.state,
          circuit_all := s.vm.circuit_all ++ s.vm.circuit,
          circuit := [],
          state_history := s.vm.state_history ++
            [B.update_quantum_state s.vm.circuit s.vm.state],
          command_history := s.vm.command_history ++ [c] },
        h := s.h + 1,
        i := s.i + 1 } := by
  simp [QF.finish, h]

theorem finish_nongate_eq (B : Backend σ) (c : Char) (s : ParseState σ)
    (h : gate_class c = false) :
    QF.finish B c s =
      { s with
        vm := { s.vm with command_history := s.vm.command_history ++ [c] },
        i := s.i + 1 } := by
  simp [QF.finish, h]

theorem close_loop_empty (B : Backend σ) (s : ParseState σ) (h : s.loop_stack = []) :
    QF.close_loop B s = .error .indexError := by
  simp [QF.close_loop, h]

theorem close_loop_cons (B : Backend σ) (s : ParseState σ) (top : Nat) (rest : List Nat)
    (h : s.loop_stack = top :: rest) :
    QF.close_loop B s =
      if (QF.measure B s.vm s.rnd).1 = 0 then
        .ok { s with rnd := (QF.measure B s.vm s.rnd).2, loop_stack := rest }
      else
        .ok { s with rnd := (QF.measure B s.vm s.rnd).2, i := top } := by
  simp [QF.close_loop, h]

theorem close_loop_ok_vm (B : Backend σ) (s s₁ : ParseState σ)
    (h : QF.close_loop B s = .ok s₁) : s₁.vm = s.vm ∧ s₁.h = s.h := by
  cases hst : s.loop_stack with
  | nil => rw [close_loop_empty B s hst] at h; exact absurd h (by simp)
  | cons top rest =>
    rw [close_loop_cons B s top rest hst] at h
    split_ifs at h <;> (injection h with h; rw [← h]; exact ⟨rfl, rfl⟩)

theorem dispatch_gt (B : Backend σ) (code : List Char) (s : ParseState σ)
    (h : QF.current code s = '>') :
    QF.dispatch B code s =
      .next { s with vm := { s.vm with
        pointer := (s.vm.pointer + 1) % (s.vm.num_qubits : Int) } } := by
  delta QF.dispatch
  rw [h]
  rfl

theorem dispatch_lt (B : Backend σ) (code : List Char) (s : ParseState σ)
    (h : QF.current code s = '<') :
    QF.dispatch B code s =
      .next { s with vm := { s.vm with
        pointer := (s.vm.pointer - 1) % (s.vm.num_qubits : Int) } } := by
  delta QF.dispatch
  rw [h]
  rfl

theorem dispatch_open (B : Backend σ) (code : List Char) (s : ParseState σ)
    (h : QF.current code s = '[') :
    QF.dispatch B code s = .next { s with loop_stack := s.i :: s.loop_stack } := by
  delta QF.dispatch
  rw [h]
  rfl

theorem dispatch_close_ok (B : Backend σ) (code : List Char) (s s₁ : ParseState σ)
    (h : QF.current code s = ']') (hcl : QF.close_loop B s = .ok s₁) :
    QF.dispatch B code s = .next s₁ := by
  delta QF.dispatch
  rw [h, hcl]
  rfl

theorem dispatch_close_err (B : Backend σ) (code : List Char) (s : ParseState σ) (e : QFError)
    (h : QF.current code s = ']') (hcl : QF.close_loop B s = .error e) :
    QF.dispatch B code s = .fail e := by
  delta QF.dispatch
  rw [h, hcl]
  rfl

theorem dispatch_haar (B : Backend σ) (code : List Char) (s : ParseState σ)
    (h : QF.current code s = ';') :
    QF.dispatch B code s =
      .next { s with vm := { s.vm with state := B.haar_random_state s.rnd.seed.1 },
                     rnd := s.rnd.seed.2 } := by
  delta QF.dispatch
  rw [h]
  rfl

theorem dispatch_zero (B : Backend σ) (code : List Char) (s : ParseState σ)
    (h : QF.current code s = ',') :
    QF.dispatch B code s = .next { s with vm := { s.vm with state := B.zero_state } } := by
  delta QF.dispatch
  rw [h]
  rfl

theorem dispatch_colon (B : Backend σ) (code : List Char) (s : ParseState σ)
    (h : QF.current code s = ':') :
    QF.dispatch B code s = .next { s with rnd := (QF.measure B s.vm s.rnd).2 } := by
  delta QF.dispatch
  rw [h]
  rfl

theorem dispatch_meas (B : Backend σ) (code : List Char) (s : ParseState σ)
    (h : QF.current code s = '.' ∨ QF.current code s = 'M') :
    QF.dispatch B code s =
      .next { s with vm := { s.vm with
        circuit := s.vm.circuit ++ [Gate.measurement s.vm.pointer s.vm.pointer] } } := by
  rcases h with h | h <;> (delta QF.dispatch; rw [h]; rfl)

theorem dispatch_hgate (B : Backend σ) (code : List Char) (s : ParseState σ)
    (h : QF.current code s = '+' ∨ QF.current code s = 'H') :
    QF.dispatch B code s =
      .next { s with vm := { s.vm with
        circuit := s.vm.circuit ++ [Gate.H s.vm.pointer] } } := by
  rcases h with h | h <;> (delta QF.dispatch; rw [h]; rfl)

theorem dispatch_tgate (B : Backend σ) (code : List Char) (s : ParseState σ)
    (h : QF.current code s = '~' ∨ QF.current code s = 'T') :
    QF.dispatch B code s =
      .next { s with vm := { s.vm with
        circuit := s.vm.circuit ++ [Gate.T s.vm.pointer] } } := by
  rcases h with h | h <;> (delta QF.dispatch; rw [h]; rfl)

theorem dispatch_cnot (B : Backend σ) (code : List Char) (s : ParseState σ)
    (h : QF.current code s = '@' ∨ QF.current code s = 'C') :
    QF.dispatch B code s =
      (if (code.drop (s.i + 1)).takeWhile Char.isDigit = [] then
        .next { s with vm := { s.vm with
          circuit := s.vm.circuit ++
            [Gate.CNOT s.vm.pointer ((s.vm.pointer + 1) % (s.vm.num_qubits : Int))] } }
      else
        .next { s with
          i := s.i + ((code.drop (s.i + 1)).takeWhile Char.isDigit).length,
          vm := { s.vm with
            circuit := s.vm.circuit ++
              [Gate.CNOT s.vm.pointer
                ((s.vm.pointer +
                  (digits_to_nat ((code.drop (s.i + 1)).takeWhile Char.isDigit) : Int)) %
                  (s.vm.num_qubits : Int))] } }) := by
  rcases h with h | h <;> (delta QF.dispatch; rw [h]; rfl)

theorem dispatch_noise (B : Backend σ) (code : List Char) (s : ParseState σ)
    (h : QF.current code s = '#' ∨ QF.current code s = 'N') :
    QF.dispatch B code s =
      .next { s with vm := { s.vm with
        circuit := s.vm.circuit ++ [Gate.depolarizingNoise s.vm.pointer (1 / 10)] } } := by
  rcases h with h | h <;> (delta QF.dispatch; rw [h]; rfl)

theorem dispatch_choice (B : Backend σ) (code : List Char) (s : ParseState σ)
    (h : QF.current code s = '?') :
    QF.dispatch B code s =
      .next { s with
        vm := { s.vm with
          circuit := s.vm.circuit ++
            [if s.rnd.choice.1 then Gate.H s.vm.pointer else Gate.T s.vm.pointer] },
        rnd := s.rnd.choice.2 } := by
  delta QF.dispatch
  rw [h]
  rfl

theorem dispatch_bang (B : Backend σ) (code : List Char) (s : ParseState σ)
    (h : QF.current code s = '!') :
    QF.dispatch B code s =
      .next { s with
        vm := { s.vm with pointer := ((s.rnd.randint s.vm.num_qubits).1 : Int) },
        rnd := (s.rnd.randint s.vm.num_qubits).2 } := by
  delta QF.dispatch
  rw [h]
  rfl

theorem dispatch_star (B : Backend σ) (code : List Char) (s : ParseState σ)
    (h : QF.current code s = '*') :
    QF.dispatch B code s =
      .next { s with i := (s.rnd.randint code.length).1,
                     rnd := (s.rnd.randint code.length).2 } := by
  delta QF.dispatch
  rw [h]
  rfl

theorem dispatch_unrec (B : Backend σ) (code : List Char) (s : ParseState σ)
    (h : recognized_command (QF.current code s) = false) :
    QF.dispatch B code s = .skip { s with i := s.i + 1 } := by
  have hx : ∀ x : Char, recognized_command x = true → ¬ QF.current code s = x := by
    intro x hrx he
    rw [he, hrx] at h
    cases h
  delta QF.dispatch
  rw [if_neg (hx '>' (by decide)), if_neg (hx '<' (by decide)), if_neg (hx '[' (by decide)),
    if_neg (hx ']' (by decide)), if_neg (hx ';' (by decide)), if_neg (hx ',' (by decide)),
    if_neg (hx ':' (by decide)),
    if_neg (not_or.mpr ⟨hx '.' (by decide), hx 'M' (by decide)⟩),
    if_neg (not_or.mpr ⟨hx '+' (by decide), hx 'H' (by decide)⟩),
    if_neg (not_or.mpr ⟨hx '~' (by decide), hx 'T' (by decide)⟩),
    if_neg (not_or.mpr ⟨hx '@' (by decide), hx 'C' (by decide)⟩),
    if_neg (not_or.mpr ⟨hx '#' (by decide), hx 'N' (by decide)⟩),
    if_neg (hx '?' (by decide)), if_neg (hx '!' (by decide)), if_neg (hx '*' (by decide))]

theorem char_cases (c : Char) :
    c = '>' ∨ c = '<' ∨ c = '[' ∨ c = ']' ∨ c = ';' ∨ c = ',' ∨ c = ':' ∨
    (c = '.' ∨ c = 'M') ∨ (c = '+' ∨ c = 'H') ∨ (c = '~' ∨ c = 'T') ∨
    (c = '@' ∨ c = 'C') ∨ (c = '#' ∨ c = 'N') ∨ c = '?' ∨ c = '!' ∨ c = '*' ∨
    recognized_command c = false := by
  by_cases h : recognized_command c = true
  · simp only [recognized_command, Bool.or_eq_true, beq_iff_eq] at h
    tauto
  · simp only [Bool.not_eq_true] at h
    tauto

theorem step_next (B : Backend σ) (code : List Char) (s s₁ : ParseState σ)
    (hd : QF.dispatch B code s = .next s₁) :
    QF.step B code s = .ok (QF.finish B (QF.current code s) s₁) := by
  unfold QF.step
  rw [hd]

theorem step_skip (B : Backend σ) (code : List Char) (s s₁ : ParseState σ)
    (hd : QF.dispatch B code s = .skip s₁) :
    QF.step B code s = .ok s₁ := by
  unfold QF.step
  rw [hd]

theorem step_fail (B : Backend σ) (code : List Char) (s : ParseState σ) (e : QFError)
    (hd : QF.dispatch B code s = .fail e) :
    QF.step B code s = .error e := by
  unfold QF.step
  rw [hd]

theorem finish_frame (B : Backend σ) (c : Char) (s₁ : ParseState σ) :
    (QF.finish B c s₁).vm.pointer = s₁.vm.pointer ∧
    (QF.finish B c s₁).vm.num_qubits = s₁.vm.num_qubits ∧
    (QF.finish B c s₁).i = s₁.i + 1 ∧
    (QF.finish B c s₁).loop_stack = s₁.loop_stack := by
  cases hgc : gate_class c
  · rw [finish_nongate_eq B c s₁ hgc]
    exact ⟨rfl, rfl, rfl, rfl⟩
  · rw [finish_gate_eq B c s₁ hgc]
    exact ⟨rfl, rfl, rfl, rfl⟩

theorem finish_history (B : Backend σ) (c : Char) (s₁ : ParseState σ) :
    (QF.finish B c s₁).vm.command_history = s₁.vm.command_history ++ [c] ∧
    ((QF.finish B c s₁).vm.state_history = s₁.vm.state_history ∧ gate_class c = false ∨
     (∃ st, (QF.finish B c s₁).vm.state_history = s₁.vm.state_history ++ [st]) ∧
       gate_class c = true) := by
  cases hgc : gate_class c
  · rw [finish_nongate_eq B c s₁ hgc]
    exact ⟨rfl, Or.inl ⟨rfl, rfl⟩⟩
  · rw [finish_gate_eq B c s₁ hgc]
    exact ⟨rfl, Or.inr ⟨⟨_, rfl⟩, rfl⟩⟩

set_option maxHeartbeats 1000000 in
theorem step_ok_spec (B : Backend σ) (code : List Char) (s s' : ParseState σ)
    (h : QF.step B code s = .ok s') :
    s' = { s with i := s.i + 1 } ∧ recognized_command (QF.current code s) = false ∨
    recognized_command (QF.current code s) = true ∧
    ∃ s₁ : ParseState σ,
      s' = QF.finish B (QF.current code s) s₁ ∧
      s₁.vm.command_history = s.vm.command_history ∧
      s₁.vm.state_history = s.vm.state_history ∧
      s₁.vm.circuit_all = s.vm.circuit_all ∧
      s₁.vm.num_qubits = s.vm.num_qubits ∧
      (gate_class (QF.current code s) = true →
        ∃ g, s₁.vm.circuit = s.vm.circuit ++ [g] ∧ s₁.vm.state = s.vm.state) ∧
      (gate_class (QF.current code s) = false → s₁.vm.circuit = s.vm.circuit) ∧
      (s.vm.num_qubits ≠ 0 → 0 ≤ s.vm.pointer → s.vm.pointer < (s.vm.num_qubits : Int) →
        0 ≤ s₁.vm.pointer ∧ s₁.vm.pointer < (s.vm.num_qubits : Int)) := by
  rcases char_cases (QF.current code s) with
    hc | hc | hc | hc | hc | hc | hc | hc | hc | hc | hc | hc | hc | hc | hc | hc
  -- '>'
  · right
    rw [step_next B code s _ (dispatch_gt B code s hc)] at h
    injection h with h
    refine ⟨by rw [hc]; decide, _, h.symm, rfl, rfl, rfl, rfl, ?_, ?_, ?_⟩
    · intro hg; rw [hc] at hg; exact absurd hg (by decide)
    · intro _; rfl
    · intro hn h0 hl; exact emod_nat_bounds _ _ hn
  -- '<'
  · right
    rw [step_next B code s _ (dispatch_lt B code s hc)] at h
    injection h with h
    refine ⟨by rw [hc]; decide, _, h.symm, rfl, rfl, rfl, rfl, ?_, ?_, ?_⟩
    · intro hg; rw [hc] at hg; exact absurd hg (by decide)
    · intro _; rfl
    · intro hn h0 hl; exact emod_nat_bounds _ _ hn
  -- '['
  · right
    rw [step_next B code s _ (dispatch_open B code s hc)] at h
    injection h with h
    refine ⟨by rw [hc]; decide, _, h.symm, rfl, rfl, rfl, rfl, ?_, ?_, ?_⟩
    · intro hg; rw [hc] at hg; exact absurd hg (by decide)
    · intro _; rfl
    · intro _ h0 hl; exact ⟨h0, hl⟩
  -- ']'
  · cases hcl : QF.close_loop B s with
    | error e =>
      rw [step_fail B code s e (dispatch_close_err B code s e hc hcl)] at h
      cases h
    | ok s₂ =>
      rw [step_next B code s s₂ (dispatch_close_ok B code s s₂ hc hcl)] at h
      injection h with h
      obtain ⟨hvm, _⟩ := close_loop_ok_vm B s s₂ hcl
      right
      refine ⟨by rw [hc]; decide, s₂, h.symm, by rw [hvm], by rw [hvm], by rw [hvm],
        by rw [hvm], ?_, ?_, ?_⟩
      · intro hg; rw [hc] at hg; exact absurd hg (by decide)
      · intro _; rw [hvm]
      · intro _ h0 hl; rw [hvm]; exact ⟨h0, hl⟩
  -- ';'
  · right
    rw [step_next B code s _ (dispatch_haar B code s hc)] at h
    injection h with h
    refine ⟨by rw [hc]; decide, _, h.symm, rfl, rfl, rfl, rfl, ?_, ?_, ?_⟩
    · intro hg; rw [hc] at hg; exact absurd hg (by decide)
    · intro _; rfl
    · intro _ h0 hl; exact ⟨h0, hl⟩
  -- ','
  · right
    rw [step_next B code s _ (dispatch_zero B code s hc)] at h
    injection h with h
    refine ⟨by rw [hc]; decide, _, h.symm, rfl, rfl, rfl, rfl, ?_, ?_, ?_⟩
    · intro hg; rw [hc] at hg; exact absurd hg (by decide)
    · intro _; rfl
    · intro _ h0 hl; exact ⟨h0, hl⟩
  -- ':'
  · right
    rw [step_next B code s _ (dispatch_colon B code s hc)] at h
    injection h with h
    refine ⟨by rw [hc]; decide, _, h.symm, rfl, rfl, rfl, rfl, ?_, ?_, ?_⟩
    · intro hg; rw [hc] at hg; exact absurd hg (by decide)
    · intro _; rfl
    · intro _ h0 hl; exact ⟨h0, hl⟩
  -- '.' / 'M'
  · right
    have hrc : recognized_command (QF.current code s) = true := by
      rcases hc with hc | hc <;> (rw [hc]; decide)
    have hgc : gate_class (QF.current code s) = true := by
      rcases hc with hc | hc <;> (rw [hc]; decide)
    rw [step_next B code s _ (dispatch_meas B code s hc)] at h
    injection h with h
    refine ⟨hrc, _, h.symm, rfl, rfl, rfl, rfl, ?_, ?_, ?_⟩
    · intro _; exact ⟨_, rfl, rfl⟩
    · intro hf; rw [hgc] at hf; cases hf
    · intro _ h0 hl; exact ⟨h0, hl⟩
  -- '+' / 'H'
  · right
    have hrc : recognized_command (QF.current code s) = true := by
      rcases hc with hc | hc <;> (rw [hc]; decide)
    have hgc : gate_class (QF.current code s) = true := by
      rcases hc with hc | hc <;> (rw [hc]; decide)
    rw [step_next B code s _ (dispatch_hgate B code s hc)] at h
    injection h with h
    refine ⟨hrc, _, h.symm, rfl, rfl, rfl, rfl, ?_, ?_, ?_⟩
    · intro _; exact ⟨_, rfl, rfl⟩
    · intro hf; rw [hgc] at hf; cases hf
    · intro _ h0 hl; exact ⟨h0, hl⟩
  -- '~' / 'T'
  · right
    have hrc : recognized_command (QF.current code s) = true := by
      rcases hc with hc | hc <;> (rw [hc]; decide)
    have hgc : gate_class (QF.current code s) = true := by
      rcases hc with hc | hc <;> (rw [hc]; decide)
    rw [step_next B code s _ (dispatch_tgate B code s hc)] at h
    injection h with h
    refine ⟨hrc, _, h.symm, rfl, rfl, rfl, rfl, ?_, ?_, ?_⟩
    · intro _; exact ⟨_, rfl, rfl⟩
    · intro hf; rw [hgc] at hf; cases hf
    · intro _ h0 hl; exact ⟨h0, hl⟩
  -- '@' / 'C'
  · right
    have hrc : recognized_command (QF.current code s) = true := by
      rcases hc with hc | hc <;> (rw [hc]; decide)
    have hgc : gate_class (QF.current code s) = true := by
      rcases hc with hc | hc <;> (rw [hc]; decide)
    have hd := dispatch_cnot B code s hc
    by_cases hdig : (code.drop (s.i + 1)).takeWhile Char.isDigit = []
    · rw [if_pos hdig] at hd
      rw [step_next B code s _ hd] at h
      injection h with h
      refine ⟨hrc, _, h.symm, rfl, rfl, rfl, rfl, ?_, ?_, ?_⟩
      · intro _; exact ⟨_, rfl, rfl⟩
      · intro hf; rw [hgc] at hf; cases hf
      · intro _ h0 hl; exact ⟨h0, hl⟩
    · rw [if_neg hdig] at hd
      rw [step_next B code s _ hd] at h
      injection h with h
      refine ⟨hrc, _, h.symm, rfl, rfl, rfl, rfl, ?_, ?_, ?_⟩
      · intro _; exact ⟨_, rfl, rfl⟩
      · intro hf; rw [hgc] at hf; cases hf
      · intro _ h0 hl; exact ⟨h0, hl⟩
  -- '#' / 'N'
  · right
    have hrc : recognized_command (QF.current code s) = true := by
      rcases hc with hc | hc <;> (rw [hc]; decide)
    have hgc : gate_class (QF.current code s) = true := by
      rcases hc with hc | hc <;> (rw [hc]; decide)
    rw [step_next B code s _ (dispatch_noise B code s hc)] at h
    injection h with h
    refine ⟨hrc, _, h.symm, rfl, rfl, rfl, rfl, ?_, ?_, ?_⟩
    · intro _; exact ⟨_, rfl, rfl⟩
    · intro hf; rw [hgc] at hf; cases hf
    · intro _ h0 hl; exact ⟨h0, hl⟩
  -- '?'
  · right
    rw [step_next B code s _ (dispatch_choice B code s hc)] at h
    injection h with h
    refine ⟨by rw [hc]; decide, _, h.symm, rfl, rfl, rfl, rfl, ?_, ?_, ?_⟩
    · intro _; exact ⟨_, rfl, rfl⟩
    · intro hf; rw [hc] at hf; cases hf
    · intro _ h0 hl; exact ⟨h0, hl⟩
  -- '!'
  · right
    rw [step_next B code s _ (dispatch_bang B code s hc)] at h
    injection h with h
    refine ⟨by rw [hc]; decide, _, h.symm, rfl, rfl, rfl, rfl, ?_, ?_, ?_⟩
    · intro hg; rw [hc] at hg; exact absurd hg (by decide)
    · intro _; rfl
    · intro hn h0 hl
      have hlt : (s.rnd.randint s.vm.num_qubits).1 < s.vm.num_qubits :=
        Nat.mod_lt _ (Nat.pos_of_ne_zero hn)
      constructor
      · show (0 : Int) ≤ ((s.rnd.randint s.vm.num_qubits).1 : Int)
        exact Int.natCast_nonneg _
      · show ((s.rnd.randint s.vm.num_qubits).1 : Int) < (s.vm.num_qubits : Int)
        exact_mod_cast hlt
  -- '*'
  · right
    rw [step_next B code s _ (dispatch_star B code s hc)] at h
    injection h with h
    refine ⟨by rw [hc]; decide, _, h.symm, rfl, rfl, rfl, rfl, ?_, ?_, ?_⟩
    · intro hg; rw [hc] at hg; exact absurd hg (by decide)
    · intro _; rfl
    · intro _ h0 hl; exact ⟨h0, hl⟩
  -- unrecognized
  · left
    rw [step_skip B code s _ (dispatch_unrec B code s hc)] at h
    injection h with h
    exact ⟨h.symm, hc⟩

theorem parse_loop_rel (B : Backend σ) (code : List Char)
    (R : ParseState σ → ParseState σ → Prop)
    (hrefl : ∀ s, R s s)
    (htrans : ∀ a b c, R a b → R b c → R a c)
    (hstep : ∀ s s', QF.step B code s = .ok s' → R s s') :
    ∀ (fuel : Nat) (s s' : ParseState σ), QF.parse_loop B code fuel s = .ok s' → R s s' := by
  intro fuel
  induction fuel with
  | zero =>
    intro s s' h
    exact absurd h (by simp [QF.parse_loop])
  | succ n ih =>
    intro s s' h
    simp only [QF.parse_loop] at h
    split_ifs at h with hi
    · cases hs : QF.step B code s with
      | error e =>
        rw [hs] at h
        cases h
      | ok s₁ =>
        rw [hs] at h
        exact htrans _ _ _ (hstep s s₁ hs) (ih s₁ s' h)
    · injection h with h
      rw [← h]
      exact hrefl s

theorem except_map_ok {ε α β : Type} (f : α → β) (x : Except ε α) (y : β)
    (h : x.map f = .ok y) : ∃ a, x = .ok a ∧ f a = y := by
  cases x with
  | error e => exact absurd h (by simp [Except.map])
  | ok a =>
    refine ⟨a, rfl, ?_⟩
    simpa [Except.map] using h

theorem parse_ok_elim (B : Backend σ) (vm : QF σ) (code : List Char) (fuel : Nat)
    (rnd : RandSrc) (vm' : QF σ) (rnd' : RandSrc)
    (h : QF.parse B vm code fuel rnd = .ok (vm', rnd')) :
    ∃ s', QF.parse_loop B code fuel
        { vm := vm, i := 0, h := 0, loop_stack := [], rnd := rnd } = .ok s' ∧
      s'.vm = vm' ∧ s'.rnd = rnd' := by
  unfold QF.parse at h
  cases hpl : QF.parse_loop B code fuel
      { vm := vm, i := 0, h := 0, loop_stack := [], rnd := rnd } with
  | error e =>
    rw [hpl] at h
    cases h
  | ok s' =>
    rw [hpl] at h
    injection h with h
    injection h with h1 h2
    exact ⟨s', rfl, h1, h2⟩

theorem parse_loop_step_err (B : Backend σ) (code : List Char) (fuel : Nat)
    (s : ParseState σ) (e : QFError) (hi : s.i < code.length)
    (hs : QF.step B code s = .error e) :
    QF.parse_loop B code (fuel + 1) s = .error e := by
  simp only [QF.parse_loop]
  rw [if_pos hi, hs]

theorem parse_err (B : Backend σ) (vm : QF σ) (code : List Char) (fuel : Nat)
    (rnd : RandSrc) (e : QFError)
    (h : QF.parse_loop B code fuel
        { vm := vm, i := 0, h := 0, loop_stack := [], rnd := rnd } = .error e) :
    QF.parse B vm code fuel rnd = .error e := by
  unfold QF.parse
  rw [h]

theorem measure_B1_eq (vm : QF Unit) (rnd : RandSrc) :
    QF.measure B1 vm rnd =
      (if rnd.floats.headD 0 < 1 / 2 then 0 else 1,
       { rnd with floats := rnd.floats.tail }) := by
  show (if (1 - B1.expectation_Z vm.state vm.pointer) * (1 / 2) > rnd.rand.1
      then (0 : Nat) else 1, rnd.rand.2) = _
  norm_num [B1, RandSrc.rand]

/- ------------------------------------------------------------------ -/
/- Claim theorems                                                     -/
/- ------------------------------------------------------------------ -/

/-- C9: Dispatching an unrecognized command character leaves the quantum
state, the State History, the loop stack, and the pointer unchanged, appends
nothing to the Command History, and advances the program counter by exactly
1: the step returns the very same parse state with only `i` incremented
(qf.py lines 128-132). -/
theorem c9_unrecognized_skip (B : Backend σ) (code : List Char) (s : ParseState σ)
    (h : recognized_command (QF.current code s) = false) :
    QF.step B code s = .ok { s with i := s.i + 1 } :=
  step_skip B code s _ (dispatch_unrec B code s h)

/-- C9 witness: the program `"X"` (unrecognized) on a fresh one-qubit VM
skips, advancing only the program counter. -/
theorem c9_unrecognized_skip_witness :
    QF.step B1 ['X'] ps1 = .ok { ps1 with i := ps1.i + 1 } :=
  c9_unrecognized_skip B1 ['X'] ps1 (by decide)

/-- C1 counterexample: on the program `"]"` with an empty loop stack, `parse`
raises an `IndexError`, contrary to the claim that the command cannot raise,
requests no measurement and is skipped. -/
theorem c1_unmatched_close_counterexample :
    run_error (QF.parse B1 vm1 [']'] 5 rnd0) = some .indexError := by
  rw [parse_err B1 vm1 [']'] 5 rnd0 .indexError
    (parse_loop_step_err B1 [']'] 4 _ .indexError (by decide)
      (step_fail _ _ _ _ (dispatch_close_err _ _ _ _ rfl (close_loop_empty _ _ rfl))))]
  rfl

/-- C1 amended: dispatching `]` with an empty loop stack first evaluates
`QF.measure` (by definition of `QF.close_loop`, mirroring qf.py line 80) and
then, whatever the outcome, the empty-stack access aborts the run with an
`IndexError` (`loop_stack.pop()` on outcome 0, `loop_stack[-1]` on outcome
1); the command is not skipped and the run does not continue. -/
theorem c1_unmatched_close_raises (B : Backend σ) (code : List Char) (s : ParseState σ)
    (hs : s.loop_stack = []) (hc : QF.current code s = ']') :
    QF.step B code s = .error .indexError :=
  step_fail B code s _ (dispatch_close_err B code s _ hc (close_loop_empty B s hs))

/-- C1 amended witness: the first (and only) step of the program `"]"` on a
fresh VM errors out. -/
theorem c1_unmatched_close_raises_witness :
    QF.step B1 [']'] ps1 = .error .indexError :=
  c1_unmatched_close_raises B1 [']'] ps1 rfl rfl

/-- C2 counterexample: on the program `"*"` with jump draw 0 the claim
predicts that dispatch continues from the drawn position 0 with no further
increment, i.e. `step_i ... = some 0`; the code runs the shared `i += 1`
afterwards and lands at 1. -/
theorem c2_jump_counterexample :
    step_i (QF.step B1 ['*'] psStar) = some 1 ∧
    step_i (QF.step B1 ['*'] psStar) ≠ some 0 := by decide

/-- C2 amended: the commands that reposition the program counter do not skip
the shared increment at qf.py line 146: a `]` whose measurement outcome is 1
ends its step with the counter at (stack top) + 1, and `*` ends with
(jump target) + 1. -/
theorem c2_reposition_then_increment (B : Backend σ) (code : List Char) :
    (∀ (s : ParseState σ) (top : Nat) (rest : List Nat),
      s.loop_stack = top :: rest → QF.current code s = ']' →
      (QF.measure B s.vm s.rnd).1 ≠ 0 →
      ∃ s', QF.step B code s = .ok s' ∧ s'.i = top + 1) ∧
    (∀ s : ParseState σ, QF.current code s = '*' →
      ∃ s', QF.step B code s = .ok s' ∧ s'.i = s.rnd.ints.headD 0 % code.length + 1) := by
  constructor
  · intro s top rest hs hc hm
    have hcl : QF.close_loop B s =
        .ok { s with rnd := (QF.measure B s.vm s.rnd).2, i := top } := by
      rw [close_loop_cons B s top rest hs, if_neg hm]
    exact ⟨_, step_next B code s _ (dispatch_close_ok B code s _ hc hcl),
      (finish_frame B (QF.current code s) _).2.2.1⟩
  · intro s hc
    exact ⟨_, step_next B code s _ (dispatch_star B code s hc),
      (finish_frame B (QF.current code s) _).2.2.1⟩

/-- C2 amended witness: at the `]` of `"[]"` with stack `[0]` and a sample
that forces outcome 1, the step ends with the counter at 0 + 1. -/
theorem c2_reposition_then_increment_witness :
    ∃ s', QF.step B1 ['[', ']'] psRepeat = .ok s' ∧ s'.i = 0 + 1 :=
  (c2_reposition_then_increment B1 ['[', ']']).1 psRepeat 0 [] rfl rfl
    (by rw [measure_B1_eq]; norm_num [psRepeat])

/-- C4: With a non-empty loop stack, dispatching `]` first requests a
measurement of the qubit at the current pointer (`QF.measure B s.vm s.rnd`
reads `s.vm.pointer`); if the outcome is 0 the stack's top entry is popped
(loop exits), and if it is 1 the program counter is set to the top entry
without popping it (loop repeats).  This is the dispatch branch of qf.py
lines 77-83; the shared post-dispatch counter increment of line 146 is the
subject of C2. -/
theorem c4_close_loop_branch (B : Backend σ) (s : ParseState σ) (top : Nat)
    (rest : List Nat) (hs : s.loop_stack = top :: rest) (m : Nat × RandSrc)
    (hm : m = QF.measure B s.vm s.rnd) :
    QF.close_loop B s =
      if m.1 = 0 then .ok { s with rnd := m.2, loop_stack := rest }
      else .ok { s with rnd := m.2, i := top } := by
  rw [hm]
  exact close_loop_cons B s top rest hs

/-- C4 witness: at the `]` of `"[]"` with stack `[0]` and measurement outcome
0 (the concrete measurement evaluates to `(0, rnd0)`), the top entry is
popped. -/
theorem c4_close_loop_branch_witness :
    QF.close_loop B1 psClose =
      if ((0 : Nat), rnd0).1 = 0 then
        .ok { psClose with rnd := ((0 : Nat), rnd0).2, loop_stack := [] }
      else
        .ok { psClose with rnd := ((0 : Nat), rnd0).2, i := 0 } :=
  c4_close_loop_branch B1 psClose 0 [] rfl ((0 : Nat), rnd0)
    (by rw [measure_B1_eq]; norm_num [psClose, rnd0])

/-- C7: `measure` computes the Pauli-Z expectation value `e` on the pointer
qubit, maps it to `prob = (1 - e)/2`, draws exactly one uniform sample, and
returns 0 exactly when the sample falls strictly below `prob` (else 1); it
does not mutate the amplitude vector: in the embedding `QF.measure` only
reads the state, and both measurement-driven commands (`:` and the `]`
branch) leave `vm.state` untouched (`:` also leaves the state history). -/
theorem c7_measure_estimates (B : Backend σ) (vm : QF σ) (rnd : RandSrc) (prob sample : ℚ)
    (hp : prob = (1 - B.expectation_Z vm.state vm.pointer) / 2)
    (hs : sample = rnd.floats.headD 0) :
    ((QF.measure B vm rnd).1 = if sample < prob then 0 else 1) ∧
    (QF.measure B vm rnd).2 = { rnd with floats := rnd.floats.tail } ∧
    (∀ code (s s' : ParseState σ), QF.current code s = ':' → QF.step B code s = .ok s' →
      s'.vm.state = s.vm.state ∧ s'.vm.state_history = s.vm.state_history) ∧
    (∀ s s' : ParseState σ, QF.close_loop B s = .ok s' → s'.vm.state = s.vm.state) := by
  refine ⟨?_, rfl, ?_, ?_⟩
  · show (if (1 - B.expectation_Z vm.state vm.pointer) * (1 / 2) > rnd.rand.1
        then (0 : Nat) else 1) = _
    rw [hp, hs]
    simp only [RandSrc.rand, gt_iff_lt, mul_one_div]
  · intro code s s' hcur hstep
    rw [step_next B code s _ (dispatch_colon B code s hcur)] at hstep
    injection hstep with hstep
    rw [← hstep, hcur, finish_nongate_eq B ':' _ (by decide)]
    exact ⟨rfl, rfl⟩
  · intro s s' hcl
    rw [(close_loop_ok_vm B s s' hcl).1]

/-- C7 witness: over the trivial backend (expectation 0, so `prob = 1/2`)
with an exhausted float stream (sample 0), the measurement returns 0 and the
non-mutation clauses hold. -/
theorem c7_measure_estimates_witness :
    ((QF.measure B1 vm1 rnd0).1 = if (0 : ℚ) < 1 / 2 then 0 else 1) ∧
    (QF.measure B1 vm1 rnd0).2 = { rnd0 with floats := rnd0.floats.tail } ∧
    (∀ code (s s' : ParseState Unit), QF.current code s = ':' → QF.step B1 code s = .ok s' →
      s'.vm.state = s.vm.state ∧ s'.vm.state_history = s.vm.state_history) ∧
    (∀ s s' : ParseState Unit, QF.close_loop B1 s = .ok s' → s'.vm.state = s.vm.state) :=
  c7_measure_estimates B1 vm1 rnd0 (1 / 2) 0 (by norm_num [B1, vm1, QF.init]) rfl

/-- C6: For a CNOT command (`@`/`C`): the offset is the maximal run of
decimal digits immediately after the command character, defaulting to 1 when
no digit follows; the command never fails; the queued-and-flushed gate is
`CNOT` with control = pointer and target = (pointer + offset) mod num_qubits;
and the program counter ends at `i + (number of digits) + 1`, i.e. it is
advanced past the consumed digits (so `"@2"` advances it by 2, not 1). -/
theorem c6_cnot_offset (B : Backend σ) (code : List Char) (s : ParseState σ)
    (digits : List Char) (hd : digits = (code.drop (s.i + 1)).takeWhile Char.isDigit)
    (target : Int)
    (ht : target = (s.vm.pointer +
        (if digits = [] then 1 else (digits_to_nat digits : Int))) %
        (s.vm.num_qubits : Int))
    (hc : QF.current code s = '@' ∨ QF.current code s = 'C') :
    ∃ s', QF.step B code s = .ok s' ∧
      s'.i = s.i + digits.length + 1 ∧
      s'.vm.circuit = [] ∧
      s'.vm.circuit_all =
        s.vm.circuit_all ++ s.vm.circuit ++ [Gate.CNOT s.vm.pointer target] := by
  have hgc : gate_class (QF.current code s) = true := by
    rcases hc with h | h <;> (rw [h]; decide)
  have hdc := dispatch_cnot B code s hc
  by_cases hdig : (code.drop (s.i + 1)).takeWhile Char.isDigit = []
  · rw [if_pos hdig] at hdc
    have hd0 : digits = [] := by rw [hd]; exact hdig
    refine ⟨_, step_next B code s _ hdc, ?_, ?_, ?_⟩
    · rw [(finish_frame B (QF.current code s) _).2.2.1, hd0]
      simp
    · rw [finish_gate_eq B _ _ hgc]
    · rw [finish_gate_eq B _ _ hgc, ht, hd0]
      simp [List.append_assoc]
  · rw [if_neg hdig] at hdc
    have hd0 : digits ≠ [] := by rw [hd]; exact hdig
    refine ⟨_, step_next B code s _ hdc, ?_, ?_, ?_⟩
    · rw [(finish_frame B (QF.current code s) _).2.2.1, hd]
    · rw [finish_gate_eq B _ _ hgc]
    · rw [finish_gate_eq B _ _ hgc, ht, if_neg hd0, hd]
      simp [List.append_assoc]

/-- C6 witness: the spec's end-to-end scenario: program `"@2"`, pointer 0,
four qubits: the step succeeds, consumes the digit (counter ends at 2, not
1), and logs `CNOT` with control 0 and target `(0 + 2) mod 4 = 2`. -/
theorem c6_cnot_offset_witness :
    ∃ s', QF.step B1 ['@', '2'] psAt2 = .ok s' ∧
      s'.i = psAt2.i + (['2'] : List Char).length + 1 ∧
      s'.vm.circuit = [] ∧
      s'.vm.circuit_all =
        psAt2.vm.circuit_all ++ psAt2.vm.circuit ++ [Gate.CNOT psAt2.vm.pointer 2] :=
  c6_cnot_offset B1 ['@', '2'] psAt2 ['2'] (by decide) 2 (by decide) (Or.inl rfl)

/-- C3 counterexample: running `parse` twice (program `"+"` each time) on the
same VM instance returns the command history `['+', '+']` from the second
call — the claim predicts the histories are fresh per call, which would give
`['+']`. -/
theorem c3_fresh_histories_counterexample :
    two_runs = some ['+', '+'] ∧ ¬ (['+', '+'] : List Char) = ['+'] := by decide

/-- C3 amended: the Loop Stack is indeed created fresh per `parse` call
(qf.py line 60; the embedded `parse` starts every run with
`loop_stack := []`), but the Command History, State History and Gate Buffer
are VM attributes created in `__init__` (lines 34-39) and never reset in
`parse`: a successful call returns the VM with its histories only extended,
so a second call on the same VM appends onto the histories left by the
first. -/
theorem c3_histories_accumulate (B : Backend σ) (vm : QF σ) (code : List Char)
    (fuel : Nat) (rnd : RandSrc) (vm' : QF σ) (rnd' : RandSrc)
    (h : QF.parse B vm code fuel rnd = .ok (vm', rnd')) :
    ∃ t u, vm'.command_history = vm.command_history ++ t ∧
           vm'.state_history = vm.state_history ++ u := by
  obtain ⟨s', hpl, hvm, _⟩ := parse_ok_elim B vm code fuel rnd vm' rnd' h
  rw [← hvm]
  refine parse_loop_rel B code
    (fun a b => ∃ t u, b.vm.command_history = a.vm.command_history ++ t ∧
                       b.vm.state_history = a.vm.state_history ++ u)
    (fun s => ⟨[], [], by simp, by simp⟩) ?_ ?_ fuel _ s' hpl
  · rintro a b c ⟨t1, u1, h1, h1'⟩ ⟨t2, u2, h2, h2'⟩
    exact ⟨t1 ++ t2, u1 ++ u2, by rw [h2, h1, List.append_assoc],
      by rw [h2', h1', List.append_assoc]⟩
  · intro a b hab
    rcases step_ok_spec B code a b hab with ⟨hb, _⟩ | ⟨_, s₁, hb, hch, hsh, _⟩
    · exact ⟨[], [], by rw [hb]; simp, by rw [hb]; simp⟩
    · obtain ⟨hfc, hfs⟩ := finish_history B (QF.current code a) s₁
      rcases hfs with ⟨hfs, _⟩ | ⟨⟨st, hfs⟩, _⟩
      · exact ⟨[QF.current code a], [], by rw [hb, hfc, hch], by rw [hb, hfs, hsh]; simp⟩
      · exact ⟨[QF.current code a], [st], by rw [hb, hfc, hch], by rw [hb, hfs, hsh]⟩

/-- C3 amended witness: one more `"+"` run on a VM that already carries
history `['+']` / one snapshot ends with extended histories. -/
theorem c3_histories_accumulate_witness :
    ∃ t u, vmPost.command_history = vmPre.command_history ++ t ∧
           vmPost.state_history = vmPre.state_history ++ u :=
  c3_histories_accumulate B1 vmPre ['+'] 5 rnd0 vmPost rnd0 (by decide)

/-- C5: For a completed run of `parse` on a fresh VM (`QF.init`), every entry
of the returned Command History is a recognized command — each recognized
dispatch (including re-executions reached through loop back-edges and `*`
jumps) appends exactly one entry and unrecognized characters append nothing,
so the history length is the number of recognized dispatches — and the
length of the returned State History equals the number of gate-class
dispatches, i.e. the number of gate-class entries of the command history. -/
theorem c5_history_lengths (B : Backend σ) (num_qubits : Nat)
    (init : Option (List Char ⊕ List ℚ)) (code : List Char) (fuel : Nat) (rnd : RandSrc)
    (st : σ) (sh : List σ) (ch : List Char) (ca : List Gate)
    (h : QF.parse_result B (QF.init B num_qubits init) code fuel rnd = .ok (st, sh, ch, ca)) :
    (∀ c ∈ ch, recognized_command c = true) ∧
    sh.length = (ch.filter gate_class).length := by
  obtain ⟨⟨vm', rnd'⟩, hp, hpr⟩ := except_map_ok _ _ _ h
  obtain ⟨s', hpl, hvm, _⟩ := parse_ok_elim B _ code fuel rnd vm' rnd' hp
  have hsh : sh = vm'.state_history := by
    have := congrArg (fun q => q.2.1) hpr
    exact this.symm
  have hch : ch = vm'.command_history := by
    have := congrArg (fun q => q.2.2.1) hpr
    exact this.symm
  have key := parse_loop_rel B code
    (fun a b =>
      ((∀ c ∈ a.vm.command_history, recognized_command c = true) ∧
        a.vm.state_history.length = (a.vm.command_history.filter gate_class).length) →
      (∀ c ∈ b.vm.command_history, recognized_command c = true) ∧
        b.vm.state_history.length = (b.vm.command_history.filter gate_class).length)
    (fun s hI => hI) (fun a b c hab hbc hI => hbc (hab hI)) ?_ fuel _ s' hpl
  · have hinit : (∀ c ∈ (QF.init B num_qubits init).command_history,
        recognized_command c = true) ∧
        (QF.init B num_qubits init).state_history.length =
          ((QF.init B num_qubits init).command_history.filter gate_class).length := by
      exact ⟨fun c hc => absurd hc (by simp [QF.init]), by simp [QF.init]⟩
    have := key hinit
    rw [hsh, hch, ← hvm]
    exact this
  · intro a b hab hI
    rcases step_ok_spec B code a b hab with ⟨hb, _⟩ | ⟨hrc, s₁, hb, hch1, hsh1, _⟩
    · rw [hb]
      exact hI
    · obtain ⟨hfc, hfs⟩ := finish_history B (QF.current code a) s₁
      constructor
      · intro c hc
        rw [hb, hfc, hch1] at hc
        rcases List.mem_append.mp hc with hc | hc
        · exact hI.1 c hc
        · rw [List.mem_singleton.mp hc]
          exact hrc
      · rcases hfs with ⟨hfs, hgc⟩ | ⟨⟨stx, hfs⟩, hgc⟩
        · rw [hb, hfs, hsh1, hfc, hch1, List.filter_append]
          simp [hgc]
          exact hI.2
        · rw [hb, hfs, hsh1, hfc, hch1, List.filter_append]
          simp [hgc, hI.2]

/-- C5 witness: the run `"+X"` on a fresh one-qubit VM returns command
history `['+']` (the `X` is skipped) and one state snapshot, matching the
count of gate-class entries. -/
theorem c5_history_lengths_witness :
    (∀ c ∈ (['+'] : List Char), recognized_command c = true) ∧
    ([()] : List Unit).length = ((['+'] : List Char).filter gate_class).length :=
  c5_history_lengths B1 1 none ['+', 'X'] 5 rnd0 () [()] ['+'] [Gate.H 0] (by decide)

/-- C8: With positive `num_qubits`, the pointer starts at 0 and stays an
integer in `[0, num_qubits)` across every step — `>` and `<` wrap through the
(Euclidean, Python-style) modulo, `!` redraws a value inside the range, and
no other command touches the pointer — and hence across any completed
stretch of the parse loop: out-of-range pointer arithmetic is impossible by
construction. -/
theorem c8_pointer_range (B : Backend σ) (n : Nat) (hn : 0 < n) :
    (∀ init, (QF.init B n init).pointer = 0) ∧
    (∀ code (s s' : ParseState σ), s.vm.num_qubits = n →
      0 ≤ s.vm.pointer → s.vm.pointer < (n : Int) →
      QF.step B code s = .ok s' →
      s'.vm.num_qubits = n ∧ 0 ≤ s'.vm.pointer ∧ s'.vm.pointer < (n : Int)) ∧
    (∀ code fuel (s s' : ParseState σ), s.vm.num_qubits = n →
      0 ≤ s.vm.pointer → s.vm.pointer < (n : Int) →
      QF.parse_loop B code fuel s = .ok s' →
      s'.vm.num_qubits = n ∧ 0 ≤ s'.vm.pointer ∧ s'.vm.pointer < (n : Int)) := by
  have hstep : ∀ code (s s' : ParseState σ), s.vm.num_qubits = n →
      0 ≤ s.vm.pointer → s.vm.pointer < (n : Int) →
      QF.step B code s = .ok s' →
      s'.vm.num_qubits = n ∧ 0 ≤ s'.vm.pointer ∧ s'.vm.pointer < (n : Int) := by
    intro code s s' hnq h0 hl hst
    rcases step_ok_spec B code s s' hst with ⟨hb, _⟩ |
      ⟨_, s₁, hb, _, _, _, hnq1, _, _, hptr⟩
    · rw [hb]
      exact ⟨hnq, h0, hl⟩
    · obtain ⟨hfp, hfn, _, _⟩ := finish_frame B (QF.current code s) s₁
      have hptr' := hptr (by rw [hnq]; omega) h0 (by rw [hnq]; exact hl)
      have hl1 : s₁.vm.pointer < (n : Int) := by
        have := hptr'.2
        rw [hnq] at this
        exact this
      rw [hb]
      exact ⟨by rw [hfn, hnq1, hnq], by rw [hfp]; exact hptr'.1, by rw [hfp]; exact hl1⟩
  refine ⟨fun init => rfl, hstep, ?_⟩
  intro code fuel s s' hnq h0 hl hpl
  exact parse_loop_rel B code
    (fun a b => (a.vm.num_qubits = n ∧ 0 ≤ a.vm.pointer ∧ a.vm.pointer < (n : Int)) →
      (b.vm.num_qubits = n ∧ 0 ≤ b.vm.pointer ∧ b.vm.pointer < (n : Int)))
    (fun _ hI => hI) (fun a b c hab hbc hI => hbc (hab hI))
    (fun a b hab hI => hstep code a b hI.1 hI.2.1 hI.2.2 hab) fuel s s' hpl ⟨hnq, h0, hl⟩

/-- C8 witness: a fresh VM starts at pointer 0, and the step of `">"` on one
qubit wraps the pointer back into `[0, 1)`. -/
theorem c8_pointer_range_witness :
    (∀ init, (QF.init B1 1 init).pointer = 0) ∧
    (ps1Gt.vm.num_qubits = 1 ∧ 0 ≤ ps1Gt.vm.pointer ∧ ps1Gt.vm.pointer < (1 : Int)) :=
  ⟨(c8_pointer_range B1 1 (by decide)).1,
   (c8_pointer_range B1 1 (by decide)).2.1 ['>'] ps1 ps1Gt rfl (by decide) (by decide)
     (by decide)⟩

/-- C10: The gate buffer starts empty at construction, and from an empty
buffer every step either leaves the buffer, the state history and the full
log untouched (non-gate commands), or queues exactly one operation and
immediately flushes it: the new snapshot is the application of that single
operation to the current state, the full circuit log grows by exactly that
operation, and the buffer is empty again.  Hence the buffer holds at most one
pending operation at any point, each snapshot reflects exactly one
operation, and the buffer is empty whenever `parse` completes. -/
theorem c10_gate_buffer (B : Backend σ) (code : List Char) :
    (∀ n init, (QF.init B n init).circuit = []) ∧
    (∀ s s' : ParseState σ, s.vm.circuit = [] → QF.step B code s = .ok s' →
      s'.vm.circuit = [] ∧
      (s'.vm.state_history = s.vm.state_history ∧ s'.vm.circuit_all = s.vm.circuit_all ∨
       ∃ g, s'.vm.state_history =
              s.vm.state_history ++ [B.update_quantum_state [g] s.vm.state] ∧
            s'.vm.circuit_all = s.vm.circuit_all ++ [g])) ∧
    (∀ fuel (vm vm' : QF σ) (rnd rnd' : RandSrc), vm.circuit = [] →
      QF.parse B vm code fuel rnd = .ok (vm', rnd') → vm'.circuit = []) := by
  have hstep : ∀ s s' : ParseState σ, s.vm.circuit = [] → QF.step B code s = .ok s' →
      s'.vm.circuit = [] ∧
      (s'.vm.state_history = s.vm.state_history ∧ s'.vm.circuit_all = s.vm.circuit_all ∨
       ∃ g, s'.vm.state_history =
              s.vm.state_history ++ [B.update_quantum_state [g] s.vm.state] ∧
            s'.vm.circuit_all = s.vm.circuit_all ++ [g]) := by
    intro s s' hc hst
    rcases step_ok_spec B code s s' hst with ⟨hb, _⟩ |
      ⟨_, s₁, hb, _, hsh1, hca1, _, hgt, hgf, _⟩
    · rw [hb]
      exact ⟨hc, Or.inl ⟨rfl, rfl⟩⟩
    · cases hgc : gate_class (QF.current code s) with
      | false =>
        rw [hb, finish_nongate_eq B _ _ hgc]
        refine ⟨?_, Or.inl ⟨?_, ?_⟩⟩
        · show s₁.vm.circuit = []
          rw [hgf hgc, hc]
        · show s₁.vm.state_history = s.vm.state_history
          exact hsh1
        · show s₁.vm.circuit_all = s.vm.circuit_all
          exact hca1
      | true =>
        obtain ⟨g, hg, hstate⟩ := hgt hgc
        rw [hb, finish_gate_eq B _ _ hgc]
        refine ⟨rfl, Or.inr ⟨g, ?_, ?_⟩⟩
        · show s₁.vm.state_history ++
              [B.update_quantum_state s₁.vm.circuit s₁.vm.state] =
            s.vm.state_history ++ [B.update_quantum_state [g] s.vm.state]
          rw [hsh1, hg, hc, hstate]
          simp
        · show s₁.vm.circuit_all ++ s₁.vm.circuit = s.vm.circuit_all ++ [g]
          rw [hca1, hg, hc]
          simp
  refine ⟨fun n init => rfl, hstep, ?_⟩
  intro fuel vm vm' rnd rnd' hc hp
  obtain ⟨s', hpl, hvm, _⟩ := parse_ok_elim B vm code fuel rnd vm' rnd' hp
  rw [← hvm]
  exact parse_loop_rel B code (fun a b => a.vm.circuit = [] → b.vm.circuit = [])
    (fun _ hI => hI) (fun a b c hab hbc hI => hbc (hab hI))
    (fun a b hab hI => (hstep a b hI hab).1) fuel _ s' hpl hc

/-- C10 witness: a fresh VM has an empty buffer, and the step of `"+"` from a
fresh state flushes exactly the queued Hadamard: one new snapshot, the log
grows by that one gate, and the buffer is empty again. -/
theorem c10_gate_buffer_witness :
    (QF.init B1 1 none).circuit = [] ∧
    (ps1Plus.vm.circuit = [] ∧
      (ps1Plus.vm.state_history = ps1.vm.state_history ∧
         ps1Plus.vm.circuit_all = ps1.vm.circuit_all ∨
       ∃ g, ps1Plus.vm.state_history =
              ps1.vm.state_history ++ [B1.update_quantum_state [g] ps1.vm.state] ∧
            ps1Plus.vm.circuit_all = ps1.vm.circuit_all ++ [g])) :=
  ⟨(c10_gate_buffer B1 ['+']).1 1 none,
   (c10_gate_buffer B1 ['+']).2.1 ps1 ps1Plus rfl (by decide)⟩
